import Mathlib

/-!
Verification of the universal MCP installer (`install.py`).

The script reads a client's JSON configuration file (or a default skeleton
when the file is absent or unparsable), merges one named server entry into
it in the client family's shape, and writes the file back.  We embed the
JSON data model and every function the claims touch as executable Lean
definitions, mirroring the Python source:

* JSON values are the inductive `Json`; Python `dict`s are ordered
  association lists (insertion order preserved, key update in place), which
  is exactly Python's observable dict behaviour for JSON documents.
* Filesystem reads are shallow-embedded: a configuration file's state is an
  `Option Json` (`none` = the file is absent, unreadable, or not valid
  JSON; `some v` = it parses to `v`).  Writes are returned, not performed.
* A Python statement that raises (e.g. indexing a non-dict) is an
  `Except.error`; `install_to_client` catches it, exactly as the source's
  `try/except` does.
* `get_uv_command()` probes the filesystem; the install functions below
  take its result `uv` as a parameter (the probe itself is embedded as
  `get_uv_command` over an abstract existence predicate).
-/

/-- A JSON value, as `json.load` produces it. -/
inductive Json where
  | null : Json
  | bool : Bool → Json
  | num : Int → Json
  | str : String → Json
  | arr : List Json → Json
  | obj : List (String × Json) → Json

namespace Json

/-- Lookup in a Python dict (first matching key; a parsed JSON object has
each key at most once). -/
def getKey : List (String × Json) → String → Option Json
  | [], _ => none
  | (k, v) :: rest, key => if k = key then some v else getKey rest key

/-- Python `d[key] = v`: update in place when the key is present, append
otherwise (dicts preserve insertion order). -/
def setKey : List (String × Json) → String → Json → List (String × Json)
  | [], key, v => [(key, v)]
  | (k, w) :: rest, key, v =>
      if k = key then (key, v) :: rest else (k, w) :: setKey rest key v

/-- Whether a value is a JSON object (a Python dict). -/
def isObj : Json → Bool
  | obj _ => true
  | _ => false

/-- Top-level key lookup on a document (none when the document is not an
object). -/
def topLookup : Json → String → Option Json
  | obj f, k => getKey f k
  | _, _ => none

end Json

/-- install.py line 26. -/
def SERVER_NAME : String := "usolver"

/-- install.py line 27. -/
def SERVER_EXECUTABLE : String := "usolver_mcp/server/main.py"

/-- Python `Path(a) / "b"`: `Path("")` is `.`, so joining onto the empty
string yields the right-hand part alone. -/
def pathJoin (a b : String) : String :=
  if a = "" then b else a ++ "/" ++ b

/-- `get_config_paths` (install.py lines 30-77): map each of the seven
clients to its config file path, branching on `platform.system()`.  `home`,
`appdata` and `localappdata` stand for `Path.home()`, `%APPDATA%` and
`%LOCALAPPDATA%`. -/
def get_config_paths (system home appdata localappdata : String) :
    List (String × String) :=
  if system = "Darwin" then
    [("claude", pathJoin home "Library/Application Support/Claude/claude_desktop_config.json"),
     ("cursor", pathJoin home ".cursor/mcp.json"),
     ("vscode", pathJoin home ".vscode/mcp.json"),
     ("cline", pathJoin home ".cline/mcp.json"),
     ("windsurf", pathJoin home ".codeium/windsurf/mcp_config.json"),
     ("n8n", pathJoin home ".n8n/mcp.json"),
     ("5ire", pathJoin home "Library/Application Support/5ire/mcp.json")]
  else if system = "Windows" then
    [("claude", pathJoin appdata "Claude/claude_desktop_config.json"),
     ("cursor", pathJoin home ".cursor/mcp.json"),
     ("vscode", pathJoin home ".vscode/mcp.json"),
     ("cline", pathJoin home ".cline/mcp.json"),
     ("windsurf", pathJoin localappdata "Codeium/Windsurf/mcp_config.json"),
     ("n8n", pathJoin home ".n8n/mcp.json"),
     ("5ire", pathJoin appdata "5ire/mcp.json")]
  else
    [("claude", pathJoin home ".config/Claude/claude_desktop_config.json"),
     ("cursor", pathJoin home ".cursor/mcp.json"),
     ("vscode", pathJoin home ".vscode/mcp.json"),
     ("cline", pathJoin home ".cline/mcp.json"),
     ("windsurf", pathJoin home ".config/windsurf/mcp_config.json"),
     ("n8n", pathJoin home ".n8n/mcp.json"),
     ("5ire", pathJoin home ".config/5ire/mcp.json")]

/-- `load_or_create_config` (install.py lines 80-91).  `parsed` is the
file's state (`none`: absent, unreadable, or `json.load` raised a
`JSONDecodeError`).  `default_structure or {"mcpServers": {}}` is Python
truthiness: an absent default, and also an empty dict, falls back to the
Family A skeleton. -/
def load_or_create_config (parsed : Option Json) (default_structure : Option Json) : Json :=
  match parsed with
  | some doc => doc
  | none =>
      match default_structure with
      | some (Json.obj []) => Json.obj [("mcpServers", Json.obj [])]
      | some d => d
      | none => Json.obj [("mcpServers", Json.obj [])]

/-- `get_uv_command` (install.py lines 101-113): first candidate path that
exists, with the bare name `uv` always accepted. -/
def get_uv_command (pathExists : String → Bool) : String :=
  if pathExists "/opt/homebrew/bin/uv" then "/opt/homebrew/bin/uv"
  else if pathExists "/usr/local/bin/uv" then "/usr/local/bin/uv"
  else "uv"

/-- The `server_config` dict built in `install_to_claude_cursor_format`
(install.py lines 126-134). -/
def claudeServerConfig (uv script_dir : String) : Json :=
  Json.obj
    [("command", Json.str uv),
     ("args", Json.arr
        [Json.str "run", Json.str "--directory", Json.str script_dir,
         Json.str SERVER_EXECUTABLE])]

/-- The `server_config` dict built in `install_to_vscode_format`
(install.py lines 155-164): same as the Claude one plus a fixed
`type: "stdio"` field. -/
def vscodeServerConfig (uv script_dir : String) : Json :=
  Json.obj
    [("type", Json.str "stdio"),
     ("command", Json.str uv),
     ("args", Json.arr
        [Json.str "run", Json.str "--directory", Json.str script_dir,
         Json.str SERVER_EXECUTABLE])]

/-- The `server_config` dict built in `install_to_windsurf_format`
(install.py lines 185-194): carries its own `name` field. -/
def windsurfServerConfig (uv script_dir server_name : String) : Json :=
  Json.obj
    [("name", Json.str server_name),
     ("command", Json.str uv),
     ("args", Json.arr
        [Json.str "run", Json.str "--directory", Json.str script_dir,
         Json.str SERVER_EXECUTABLE])]

/-- `install_to_claude_cursor_format` (install.py lines 116-140).  Loads the
config (no explicit default), ensures `mcpServers` exists, then sets
`config["mcpServers"][server_name] = server_config`.  In Python every step
past the load raises a `TypeError` when the loaded document (or the value
under `mcpServers`) is not a dict; those raises are the `Except.error`
branches.  On success the returned document is what `save_config` writes. -/
def install_to_claude_cursor_format (parsed : Option Json)
    (uv script_dir server_name : String) : Except String Json :=
  match load_or_create_config parsed none with
  | Json.obj fields =>
      let fields1 :=
        if (Json.getKey fields "mcpServers").isSome then fields
        else Json.setKey fields "mcpServers" (Json.obj [])
      match Json.getKey fields1 "mcpServers" with
      | some (Json.obj servers) =>
          Except.ok (Json.obj (Json.setKey fields1 "mcpServers"
            (Json.obj (Json.setKey servers server_name (claudeServerConfig uv script_dir)))))
      | _ => Except.error "TypeError"
  | _ => Except.error "TypeError"

/-- `install_to_vscode_format` (install.py lines 143-170): default skeleton
`{"inputs": [], "servers": {}}`, key `servers`, entry with `type: "stdio"`. -/
def install_to_vscode_format (parsed : Option Json)
    (uv script_dir server_name : String) : Except String Json :=
  match load_or_create_config parsed
      (some (Json.obj [("inputs", Json.arr []), ("servers", Json.obj [])])) with
  | Json.obj fields =>
      let fields1 :=
        if (Json.getKey fields "servers").isSome then fields
        else Json.setKey fields "servers" (Json.obj [])
      match Json.getKey fields1 "servers" with
      | some (Json.obj servers) =>
          Except.ok (Json.obj (Json.setKey fields1 "servers"
            (Json.obj (Json.setKey servers server_name (vscodeServerConfig uv script_dir)))))
      | _ => Except.error "TypeError"
  | _ => Except.error "TypeError"

/-- The scan `for i, server in enumerate(config["servers"])` of install.py
lines 197-201: index of the first element whose `name` field equals
`server_name`.  Python raises an `AttributeError` when the scan reaches a
non-dict element before finding a match (`server.get` on a non-dict). -/
def findNameIndex (servers : List Json) (server_name : String) :
    Except String (Option Nat) :=
  match servers with
  | [] => Except.ok none
  | Json.obj f :: rest =>
      match Json.getKey f "name" with
      | some (Json.str m) =>
          if m = server_name then Except.ok (some 0)
          else (findNameIndex rest server_name).map (Option.map (· + 1))
      | _ => (findNameIndex rest server_name).map (Option.map (· + 1))
  | _ :: _ => Except.error "AttributeError"

/-- `install_to_windsurf_format` (install.py lines 173-209): default
skeleton `{"servers": []}`; replace the first list element whose `name`
matches, else append. -/
def install_to_windsurf_format (parsed : Option Json)
    (uv script_dir server_name : String) : Except String Json :=
  match load_or_create_config parsed (some (Json.obj [("servers", Json.arr [])])) with
  | Json.obj fields =>
      let fields1 :=
        if (Json.getKey fields "servers").isSome then fields
        else Json.setKey fields "servers" (Json.arr [])
      match Json.getKey fields1 "servers" with
      | some (Json.arr servers) =>
          match findNameIndex servers server_name with
          | Except.error e => Except.error e
          | Except.ok (some i) =>
              Except.ok (Json.obj (Json.setKey fields1 "servers"
                (Json.arr (servers.set i (windsurfServerConfig uv script_dir server_name)))))
          | Except.ok none =>
              Except.ok (Json.obj (Json.setKey fields1 "servers"
                (Json.arr (servers ++ [windsurfServerConfig uv script_dir server_name]))))
      | _ => Except.error "TypeError"
  | _ => Except.error "TypeError"

/-- `install_to_client` (install.py lines 212-228): dispatch on the client
name; the `try/except` catches any raise and reports a per-client failure.
The second component is the document written to disk (`none`: nothing was
written, because every raise happens before `save_config`). -/
def install_to_client (client_name : String) (parsed : Option Json)
    (uv script_dir server_name : String) : Bool × Option Json :=
  if client_name ∈ ["claude", "cursor", "cline", "n8n", "5ire"] then
    match install_to_claude_cursor_format parsed uv script_dir server_name with
    | Except.ok doc => (true, some doc)
    | Except.error _ => (false, none)
  else if client_name = "vscode" then
    match install_to_vscode_format parsed uv script_dir server_name with
    | Except.ok doc => (true, some doc)
    | Except.error _ => (false, none)
  else if client_name = "windsurf" then
    match install_to_windsurf_format parsed uv script_dir server_name with
    | Except.ok doc => (true, some doc)
    | Except.error _ => (false, none)
  else
    (false, none)

/-- What the orchestrator sees of one client's environment: whether the
config file's parent directory exists, and the file's parsed state. -/
structure ClientState where
  parentExists : Bool
  parsed : Option Json

/-- What one orchestrator run records: the `installed_to` list (install.py
line 349/367), the clients whose install failed (printed `✗`), and the
files written. -/
structure RunAcc where
  installed : List String
  failed : List String
  writes : List (String × Json)

/-- The subset skipped when their directory is absent (install.py line 355). -/
def optionalClients : List String := ["cursor", "cline", "n8n", "5ire"]

/-- One iteration of the loop at install.py lines 352-367. -/
def processStep (uv script_dir server_name : String) (acc : RunAcc)
    (c : String × ClientState) : RunAcc :=
  if c.1 ∈ optionalClients ∧ c.2.parentExists = false then acc
  else
    match install_to_client c.1 c.2.parsed uv script_dir server_name with
    | (true, some doc) =>
        ⟨acc.installed ++ [c.1], acc.failed, acc.writes ++ [(c.1, doc)]⟩
    | (true, none) => ⟨acc.installed ++ [c.1], acc.failed, acc.writes⟩
    | (false, _) => ⟨acc.installed, acc.failed ++ [c.1], acc.writes⟩

/-- The loop over `target_clients` (install.py lines 352-367). -/
def processClients (targets : List (String × ClientState))
    (uv script_dir server_name : String) : RunAcc :=
  targets.foldl (processStep uv script_dir server_name) ⟨[], [], []⟩

/-- Python `str.lower()` (ASCII case fold of each character). -/
def pyLower (s : String) : String := ⟨s.data.map Char.toLower⟩

/-- Python `str.strip()`: drop leading and trailing whitespace. -/
def pyStrip (s : String) : String :=
  ⟨((s.data.dropWhile Char.isWhitespace).reverse.dropWhile Char.isWhitespace).reverse⟩

/-- The confirmation loop at install.py lines 334-346: keep prompting until
an answer `.lower().strip()`-normalises to yes (`some true`) or no
(`some false`); `none` when the supplied responses run out. -/
def confirm : List String → Option Bool
  | [] => none
  | r :: rest =>
      let s := pyStrip (pyLower r)
      if s = "y" ∨ s = "yes" then some true
      else if s = "n" ∨ s = "no" then some false
      else confirm rest

/-- `main` (install.py lines 299-381) from the point its arguments are
parsed: `--list-clients` returns at once (exit 0); otherwise confirm unless
`--yes`; a declined prompt is `sys.exit(0)` before any client is touched;
then the per-client loop, and `sys.exit(1)` when `installed_to` is empty.
Result: `some (exit code, run record)`, `none` when the prompt responses
run out. -/
def runMain (listClientsFlag yes : Bool) (responses : List String)
    (targets : List (String × ClientState)) (uv script_dir server_name : String) :
    Option (Nat × RunAcc) :=
  if listClientsFlag then some (0, ⟨[], [], []⟩)
  else
    match (if yes then some true else confirm responses) with
    | none => none
    | some false => some (0, ⟨[], [], []⟩)
    | some true =>
        let acc := processClients targets uv script_dir server_name
        some (if acc.installed = [] then 1 else 0, acc)

/-- Lookup of one server entry under a Family A document's server key. -/
def serverLookup (doc : Json) (key name : String) : Option Json :=
  match Json.topLookup doc key with
  | some (Json.obj servers) => Json.getKey servers name
  | _ => none

/-- The server list of a Family B document (empty when absent or not a
list). -/
def serversOf (doc : Json) : List Json :=
  match Json.topLookup doc "servers" with
  | some (Json.arr l) => l
  | _ => []

/-- Whether a Family B list element is a record whose `name` field is the
string `n` (Python `server.get("name") == server_name`). -/
def isNamed (e : Json) (n : String) : Bool :=
  match e with
  | Json.obj f =>
      match Json.getKey f "name" with
      | some (Json.str m) => m == n
      | _ => false
  | _ => false

/-- How many elements of a Family B server list are named `n`. -/
def countNamed (l : List Json) (n : String) : Nat :=
  (l.filter (fun e => isNamed e n)).length

/-- How many entries of a Family A server map carry the key `n`. -/
def countKey (f : List (String × Json)) (n : String) : Nat :=
  (f.filter (fun p => p.1 == n)).length

/-- Number of entries named `n` under a Family A document's server key. -/
def entryCount (d : Json) (key n : String) : Nat :=
  match Json.topLookup d key with
  | some (Json.obj g) => countKey g n
  | _ => 0

/-- `entryCount` of a file state (0 when the file is absent/unparsable). -/
def entryCountStart (parsed : Option Json) (key n : String) : Nat :=
  match parsed with
  | some d0 => entryCount d0 key n
  | none => 0

/-- `countNamed` of a Family B file state. -/
def countNamedStart (parsed : Option Json) (n : String) : Nat :=
  match parsed with
  | some d0 => countNamed (serversOf d0) n
  | none => 0

/-! ## Dictionary lemmas -/

theorem Json.getKey_setKey_self (f : List (String × Json)) (k : String) (v : Json) :
    Json.getKey (Json.setKey f k v) k = some v := by
  induction f with
  | nil => simp [Json.setKey, Json.getKey]
  | cons p rest ih =>
      obtain ⟨a, b⟩ := p
      by_cases h : a = k
      · simp [Json.setKey, Json.getKey, h]
      · simp [Json.setKey, Json.getKey, h, ih]

theorem Json.getKey_setKey_ne (f : List (String × Json)) (k k' : String) (v : Json)
    (h : k' ≠ k) : Json.getKey (Json.setKey f k v) k' = Json.getKey f k' := by
  induction f with
  | nil => simp [Json.setKey, Json.getKey, Ne.symm h]
  | cons p rest ih =>
      obtain ⟨a, b⟩ := p
      by_cases hak : a = k
      · subst hak
        simp [Json.setKey, Json.getKey, Ne.symm h]
      · by_cases hak' : a = k'
        · simp [Json.setKey, Json.getKey, hak, hak', h]
        · simp [Json.setKey, Json.getKey, hak, hak', ih]

theorem Json.setKey_setKey (f : List (String × Json)) (k : String) (v w : Json) :
    Json.setKey (Json.setKey f k v) k w = Json.setKey f k w := by
  induction f with
  | nil => simp [Json.setKey]
  | cons p rest ih =>
      obtain ⟨a, b⟩ := p
      by_cases h : a = k
      · simp [Json.setKey, h]
      · simp [Json.setKey, h, ih]

theorem countKey_setKey (g : List (String × Json)) (k : String) (v : Json) :
    countKey (Json.setKey g k v) k = if countKey g k = 0 then 1 else countKey g k := by
  induction g with
  | nil => simp [Json.setKey, countKey]
  | cons p rest ih =>
      obtain ⟨a, b⟩ := p
      by_cases h : a = k
      · simp [Json.setKey, countKey, List.filter_cons, h]
      · have hb : (a == k) = false := beq_eq_false_iff_ne.mpr h
        simp only [Json.setKey, h, if_false, countKey, List.filter_cons, hb]
        simpa [countKey] using ih

theorem countKey_pos_of_getKey (g : List (String × Json)) (k : String) (v : Json)
    (h : Json.getKey g k = some v) : countKey g k ≠ 0 := by
  induction g with
  | nil => simp [Json.getKey] at h
  | cons p rest ih =>
      obtain ⟨a, b⟩ := p
      by_cases hak : a = k
      · simp [countKey, List.filter_cons, hak]
      · have hb : (a == k) = false := beq_eq_false_iff_ne.mpr hak
        simp only [Json.getKey, hak, if_false] at h
        simp only [countKey, List.filter_cons, hb]
        exact ih h

/-! ## Scan lemmas (Family B) -/

theorem except_map_ok_inv {α β : Type} (g : α → β) (x : Except String α) (b : β)
    (h : x.map g = Except.ok b) : ∃ a, x = Except.ok a ∧ g a = b := by
  cases x with
  | error e => simp [Except.map] at h
  | ok a =>
      simp [Except.map] at h
      exact ⟨a, rfl, h⟩

theorem findNameIndex_some_step (e : Json) (rest : List Json) (sn : String) (i : Nat)
    (hobj : e.isObj = true) (hnm : isNamed e sn = false)
    (ih : ∀ i, findNameIndex rest sn = Except.ok (some i) →
      i < rest.length ∧ isNamed (rest.getD i Json.null) sn = true ∧
        ∀ j, j < i → (rest.getD j Json.null).isObj = true ∧
          isNamed (rest.getD j Json.null) sn = false)
    (h : (findNameIndex rest sn).map (Option.map (· + 1)) = Except.ok (some i)) :
    i < (e :: rest).length ∧ isNamed ((e :: rest).getD i Json.null) sn = true ∧
      ∀ j, j < i → ((e :: rest).getD j Json.null).isObj = true ∧
        isNamed ((e :: rest).getD j Json.null) sn = false := by
  obtain ⟨o, hr, ho⟩ := except_map_ok_inv _ _ _ h
  cases o with
  | none => simp at ho
  | some j =>
      simp at ho
      subst ho
      obtain ⟨h1, h2, h3⟩ := ih j hr
      refine ⟨by simpa using Nat.succ_lt_succ h1, by simpa using h2, ?_⟩
      intro k hk
      cases k with
      | zero => exact ⟨hobj, hnm⟩
      | succ k' => simpa using h3 k' (Nat.lt_of_succ_lt_succ hk)

theorem findNameIndex_some (l : List Json) (sn : String) :
    ∀ i, findNameIndex l sn = Except.ok (some i) →
      i < l.length ∧ isNamed (l.getD i Json.null) sn = true ∧
        ∀ j, j < i → (l.getD j Json.null).isObj = true ∧
          isNamed (l.getD j Json.null) sn = false := by
  induction l with
  | nil => intro i h; simp [findNameIndex] at h
  | cons e rest ih =>
      intro i h
      cases e with
      | obj f =>
          rcases hn : Json.getKey f "name" with _ | v
          · simp only [findNameIndex, hn] at h
            exact findNameIndex_some_step _ _ _ _ rfl (by simp [isNamed, hn]) ih h
          · cases v with
            | str m =>
                by_cases hm : m = sn
                · simp only [findNameIndex, hn, if_pos hm] at h
                  have hi : (0 : Nat) = i := by simpa using h
                  subst hi
                  exact ⟨by simp, by simp [isNamed, hn, hm],
                    fun j hj => absurd hj (by omega)⟩
                · simp only [findNameIndex, hn, if_neg hm] at h
                  exact findNameIndex_some_step _ _ _ _ rfl
                    (by simp [isNamed, hn, beq_eq_false_iff_ne, hm]) ih h
            | null =>
                simp only [findNameIndex, hn] at h
                exact findNameIndex_some_step _ _ _ _ rfl (by simp [isNamed, hn]) ih h
            | bool b =>
                simp only [findNameIndex, hn] at h
                exact findNameIndex_some_step _ _ _ _ rfl (by simp [isNamed, hn]) ih h
            | num n =>
                simp only [findNameIndex, hn] at h
                exact findNameIndex_some_step _ _ _ _ rfl (by simp [isNamed, hn]) ih h
            | arr xs =>
                simp only [findNameIndex, hn] at h
                exact findNameIndex_some_step _ _ _ _ rfl (by simp [isNamed, hn]) ih h
            | obj g =>
                simp only [findNameIndex, hn] at h
                exact findNameIndex_some_step _ _ _ _ rfl (by simp [isNamed, hn]) ih h
      | null => simp [findNameIndex] at h
      | bool b => simp [findNameIndex] at h
      | num n => simp [findNameIndex] at h
      | str s => simp [findNameIndex] at h
      | arr xs => simp [findNameIndex] at h

example : install_to_claude_cursor_format none "uv" "/tmp/proj" "usolver" =
    Except.ok (Json.obj [("mcpServers",
      Json.obj [("usolver", claudeServerConfig "uv" "/tmp/proj")])]) := rfl

example : install_to_windsurf_format none "uv" "/d" "usolver" =
    Except.ok (Json.obj [("servers",
      Json.arr [windsurfServerConfig "uv" "/d" "usolver"])]) := rfl

example : install_to_windsurf_format
    (some (Json.obj [("servers", Json.arr [Json.num 42])])) "uv" "/d" "usolver" =
    Except.error "AttributeError" := rfl

theorem findNameIndex_none_step (e : Json) (rest : List Json) (sn : String)
    (hobj : e.isObj = true) (hnm : isNamed e sn = false)
    (ih : findNameIndex rest sn = Except.ok none →
      ∀ x ∈ rest, x.isObj = true ∧ isNamed x sn = false)
    (h : (findNameIndex rest sn).map (Option.map (· + 1)) = Except.ok none) :
    ∀ x ∈ e :: rest, x.isObj = true ∧ isNamed x sn = false := by
  obtain ⟨o, hr, ho⟩ := except_map_ok_inv _ _ _ h
  cases o with
  | some j => simp at ho
  | none =>
      intro x hx
      rcases List.mem_cons.mp hx with rfl | hx'
      · exact ⟨hobj, hnm⟩
      · exact ih hr x hx'

theorem findNameIndex_none (l : List Json) (sn : String) :
    findNameIndex l sn = Except.ok none →
      ∀ x ∈ l, x.isObj = true ∧ isNamed x sn = false := by
  induction l with
  | nil => intro _ x hx; simp at hx
  | cons e rest ih =>
      intro h
      cases e with
      | obj f =>
          rcases hn : Json.getKey f "name" with _ | v
          · simp only [findNameIndex, hn] at h
            exact findNameIndex_none_step _ _ _ rfl (by simp [isNamed, hn]) ih h
          · cases v with
            | str m =>
                by_cases hm : m = sn
                · simp only [findNameIndex, hn, if_pos hm] at h
                  simp at h
                · simp only [findNameIndex, hn, if_neg hm] at h
                  exact findNameIndex_none_step _ _ _ rfl
                    (by simp [isNamed, hn, beq_eq_false_iff_ne, hm]) ih h
            | null =>
                simp only [findNameIndex, hn] at h
                exact findNameIndex_none_step _ _ _ rfl (by simp [isNamed, hn]) ih h
            | bool b =>
                simp only [findNameIndex, hn] at h
                exact findNameIndex_none_step _ _ _ rfl (by simp [isNamed, hn]) ih h
            | num n =>
                simp only [findNameIndex, hn] at h
                exact findNameIndex_none_step _ _ _ rfl (by simp [isNamed, hn]) ih h
            | arr xs =>
                simp only [findNameIndex, hn] at h
                exact findNameIndex_none_step _ _ _ rfl (by simp [isNamed, hn]) ih h
            | obj g =>
                simp only [findNameIndex, hn] at h
                exact findNameIndex_none_step _ _ _ rfl (by simp [isNamed, hn]) ih h
      | null => simp [findNameIndex] at h
      | bool b => simp [findNameIndex] at h
      | num n => simp [findNameIndex] at h
      | str s => simp [findNameIndex] at h
      | arr xs => simp [findNameIndex] at h

theorem findNameIndex_total (l : List Json) (sn : String)
    (h : ∀ e ∈ l, e.isObj = true) : ∃ o, findNameIndex l sn = Except.ok o := by
  induction l with
  | nil => exact ⟨none, rfl⟩
  | cons e rest ih =>
      have hobj := h e (by simp)
      have hrest : ∀ x ∈ rest, x.isObj = true := fun x hx => h x (by simp [hx])
      obtain ⟨o, ho⟩ := ih hrest
      cases e with
      | obj f =>
          rcases hn : Json.getKey f "name" with _ | v
          · exact ⟨o.map (· + 1), by simp [findNameIndex, hn, ho, Except.map]⟩
          · cases v with
            | str m =>
                by_cases hm : m = sn
                · exact ⟨some 0, by simp [findNameIndex, hn, hm]⟩
                · exact ⟨o.map (· + 1), by simp [findNameIndex, hn, hm, ho, Except.map]⟩
            | null => exact ⟨o.map (· + 1), by simp [findNameIndex, hn, ho, Except.map]⟩
            | bool b => exact ⟨o.map (· + 1), by simp [findNameIndex, hn, ho, Except.map]⟩
            | num n => exact ⟨o.map (· + 1), by simp [findNameIndex, hn, ho, Except.map]⟩
            | arr xs => exact ⟨o.map (· + 1), by simp [findNameIndex, hn, ho, Except.map]⟩
            | obj g => exact ⟨o.map (· + 1), by simp [findNameIndex, hn, ho, Except.map]⟩
      | null => simp [Json.isObj] at hobj
      | bool b => simp [Json.isObj] at hobj
      | num n => simp [Json.isObj] at hobj
      | str s => simp [Json.isObj] at hobj
      | arr xs => simp [Json.isObj] at hobj

theorem countNamed_cons (e : Json) (l : List Json) (sn : String) :
    countNamed (e :: l) sn =
      (if isNamed e sn = true then 1 else 0) + countNamed l sn := by
  by_cases h : isNamed e sn = true <;>
    simp [countNamed, List.filter_cons, h, Nat.add_comm]

theorem countNamed_set (l : List Json) (sn : String) (cfg : Json) :
    ∀ i, i < l.length → isNamed (l.getD i Json.null) sn = true →
      isNamed cfg sn = true → countNamed (l.set i cfg) sn = countNamed l sn := by
  induction l with
  | nil => intro i hi; simp at hi
  | cons e rest ih =>
      intro i hi hnm hcfg
      cases i with
      | zero =>
          have he : isNamed e sn = true := by simpa using hnm
          show countNamed (cfg :: rest) sn = countNamed (e :: rest) sn
          rw [countNamed_cons, countNamed_cons, he, hcfg]
      | succ i' =>
          have h' := ih i' (by simpa using Nat.lt_of_succ_lt_succ hi)
            (by simpa using hnm) hcfg
          show countNamed (e :: rest.set i' cfg) sn = countNamed (e :: rest) sn
          rw [countNamed_cons, countNamed_cons, h']

theorem countNamed_append_named (l : List Json) (sn : String) (cfg : Json)
    (hcfg : isNamed cfg sn = true) :
    countNamed (l ++ [cfg]) sn = countNamed l sn + 1 := by
  simp [countNamed, List.filter_append, hcfg]

theorem countNamed_pos_of_find? (l : List Json) (sn : String) (x : Json)
    (h : l.find? (fun e => isNamed e sn) = some x) : countNamed l sn ≠ 0 := by
  have hx : x ∈ l := List.mem_of_find?_eq_some h
  have hpx := List.find?_some h
  have : x ∈ l.filter (fun e => isNamed e sn) := List.mem_filter.mpr ⟨hx, hpx⟩
  intro h0
  rw [countNamed, List.length_eq_zero] at h0
  rw [h0] at this
  simp at this

theorem find?_set_first (l : List Json) (sn : String) (cfg : Json) :
    ∀ i, i < l.length → (∀ j, j < i → isNamed (l.getD j Json.null) sn = false) →
      isNamed cfg sn = true →
      (l.set i cfg).find? (fun e => isNamed e sn) = some cfg := by
  induction l with
  | nil => intro i hi; simp at hi
  | cons e rest ih =>
      intro i hi hprev hcfg
      cases i with
      | zero =>
          show (cfg :: rest).find? (fun e => isNamed e sn) = some cfg
          exact List.find?_cons_of_pos _ hcfg
      | succ i' =>
          have he : isNamed e sn = false := by simpa using hprev 0 (Nat.succ_pos i')
          have h' := ih i' (by simpa using Nat.lt_of_succ_lt_succ hi)
            (fun j hj => by simpa using hprev (j + 1) (Nat.succ_lt_succ hj)) hcfg
          show (e :: rest.set i' cfg).find? (fun e => isNamed e sn) = some cfg
          rw [List.find?_cons_of_neg _ (by simp [he]), h']

theorem find?_append_of_not (l r : List Json) (sn : String)
    (h : ∀ e ∈ l, isNamed e sn = false) :
    (l ++ r).find? (fun e => isNamed e sn) = r.find? (fun e => isNamed e sn) := by
  induction l with
  | nil => simp
  | cons e rest ih =>
      have he := h e (by simp)
      rw [List.cons_append, List.find?_cons_of_neg _ (by simp [he])]
      exact ih (fun x hx => h x (by simp [hx]))

theorem isNamed_windsurfServerConfig (uv dir sn : String) :
    isNamed (windsurfServerConfig uv dir sn) sn = true := by
  simp [isNamed, windsurfServerConfig, Json.getKey]

theorem Json.setKey_nil (k : String) (v : Json) :
    Json.setKey [] k v = [(k, v)] := rfl

theorem claude_shape (f : List (String × Json)) (uv dir sn : String) (d' : Json)
    (h : install_to_claude_cursor_format (some (Json.obj f)) uv dir sn = Except.ok d') :
    (∃ g, Json.getKey f "mcpServers" = some (Json.obj g) ∧
        d' = Json.obj (Json.setKey f "mcpServers"
          (Json.obj (Json.setKey g sn (claudeServerConfig uv dir))))) ∨
      (Json.getKey f "mcpServers" = none ∧
        d' = Json.obj (Json.setKey f "mcpServers"
          (Json.obj [(sn, claudeServerConfig uv dir)]))) := by
  rcases hk : Json.getKey f "mcpServers" with _ | v
  · right
    refine ⟨rfl, ?_⟩
    simp only [install_to_claude_cursor_format, load_or_create_config, hk,
      Option.isSome_none, Bool.false_eq_true, if_false, Json.getKey_setKey_self,
      Json.setKey_setKey, Json.setKey_nil, Except.ok.injEq] at h
    exact h.symm
  · cases v with
    | obj g =>
        left
        refine ⟨g, rfl, ?_⟩
        simp only [install_to_claude_cursor_format, load_or_create_config, hk,
          Option.isSome_some, if_true, Except.ok.injEq] at h
        exact h.symm
    | null => simp [install_to_claude_cursor_format, load_or_create_config, hk] at h
    | bool b => simp [install_to_claude_cursor_format, load_or_create_config, hk] at h
    | num n => simp [install_to_claude_cursor_format, load_or_create_config, hk] at h
    | str s => simp [install_to_claude_cursor_format, load_or_create_config, hk] at h
    | arr xs => simp [install_to_claude_cursor_format, load_or_create_config, hk] at h

theorem vscode_shape (f : List (String × Json)) (uv dir sn : String) (d' : Json)
    (h : install_to_vscode_format (some (Json.obj f)) uv dir sn = Except.ok d') :
    (∃ g, Json.getKey f "servers" = some (Json.obj g) ∧
        d' = Json.obj (Json.setKey f "servers"
          (Json.obj (Json.setKey g sn (vscodeServerConfig uv dir))))) ∨
      (Json.getKey f "servers" = none ∧
        d' = Json.obj (Json.setKey f "servers"
          (Json.obj [(sn, vscodeServerConfig uv dir)]))) := by
  rcases hk : Json.getKey f "servers" with _ | v
  · right
    refine ⟨rfl, ?_⟩
    simp only [install_to_vscode_format, load_or_create_config, hk,
      Option.isSome_none, Bool.false_eq_true, if_false, Json.getKey_setKey_self,
      Json.setKey_setKey, Json.setKey_nil, Except.ok.injEq] at h
    exact h.symm
  · cases v with
    | obj g =>
        left
        refine ⟨g, rfl, ?_⟩
        simp only [install_to_vscode_format, load_or_create_config, hk,
          Option.isSome_some, if_true, Except.ok.injEq] at h
        exact h.symm
    | null => simp [install_to_vscode_format, load_or_create_config, hk] at h
    | bool b => simp [install_to_vscode_format, load_or_create_config, hk] at h
    | num n => simp [install_to_vscode_format, load_or_create_config, hk] at h
    | str s => simp [install_to_vscode_format, load_or_create_config, hk] at h
    | arr xs => simp [install_to_vscode_format, load_or_create_config, hk] at h

theorem windsurf_shape (f : List (String × Json)) (uv dir sn : String) (d' : Json)
    (h : install_to_windsurf_format (some (Json.obj f)) uv dir sn = Except.ok d') :
    (∃ l i, Json.getKey f "servers" = some (Json.arr l) ∧
        findNameIndex l sn = Except.ok (some i) ∧
        d' = Json.obj (Json.setKey f "servers"
          (Json.arr (l.set i (windsurfServerConfig uv dir sn))))) ∨
      (∃ l, Json.getKey f "servers" = some (Json.arr l) ∧
        findNameIndex l sn = Except.ok none ∧
        d' = Json.obj (Json.setKey f "servers"
          (Json.arr (l ++ [windsurfServerConfig uv dir sn])))) ∨
      (Json.getKey f "servers" = none ∧
        d' = Json.obj (Json.setKey f "servers"
          (Json.arr [windsurfServerConfig uv dir sn]))) := by
  rcases hk : Json.getKey f "servers" with _ | v
  · right; right
    refine ⟨rfl, ?_⟩
    simp only [install_to_windsurf_format, load_or_create_config, hk,
      Option.isSome_none, Bool.false_eq_true, if_false, Json.getKey_setKey_self,
      findNameIndex, Json.setKey_setKey, List.nil_append, Except.ok.injEq] at h
    exact h.symm
  · cases v with
    | arr l =>
        rcases hscan : findNameIndex l sn with e | o
        · simp [install_to_windsurf_format, load_or_create_config, hk, hscan] at h
        · cases o with
          | some i =>
              left
              refine ⟨l, i, rfl, hscan, ?_⟩
              simp only [install_to_windsurf_format, load_or_create_config, hk,
                Option.isSome_some, if_true, hscan, Except.ok.injEq] at h
              exact h.symm
          | none =>
              right; left
              refine ⟨l, rfl, hscan, ?_⟩
              simp only [install_to_windsurf_format, load_or_create_config, hk,
                Option.isSome_some, if_true, hscan, Except.ok.injEq] at h
              exact h.symm
    | null => simp [install_to_windsurf_format, load_or_create_config, hk] at h
    | bool b => simp [install_to_windsurf_format, load_or_create_config, hk] at h
    | num n => simp [install_to_windsurf_format, load_or_create_config, hk] at h
    | str s => simp [install_to_windsurf_format, load_or_create_config, hk] at h
    | obj g => simp [install_to_windsurf_format, load_or_create_config, hk] at h

theorem countNamed_pos_of_getD (l : List Json) (sn : String) (i : Nat)
    (hi : i < l.length) (hnm : isNamed (l.getD i Json.null) sn = true) :
    countNamed l sn ≠ 0 := by
  have hmem : l.getD i Json.null ∈ l := by
    rw [List.getD_eq_getElem?_getD, List.getElem?_eq_getElem hi]
    exact List.get_mem l i hi
  have hin : l.getD i Json.null ∈ l.filter (fun e => isNamed e sn) :=
    List.mem_filter.mpr ⟨hmem, hnm⟩
  intro h0
  rw [countNamed, List.length_eq_zero] at h0
  rw [h0] at hin
  simp at hin

theorem claude_post (parsed : Option Json) (uv dir sn : String) (d' : Json)
    (h : install_to_claude_cursor_format parsed uv dir sn = Except.ok d') :
    ∃ fs inner, d' = Json.obj fs ∧
      Json.getKey fs "mcpServers" = some (Json.obj inner) ∧
      Json.getKey inner sn = some (claudeServerConfig uv dir) ∧
      countKey inner sn =
        (if entryCountStart parsed "mcpServers" sn = 0 then 1
         else entryCountStart parsed "mcpServers" sn) := by
  cases parsed with
  | none =>
      have heq : install_to_claude_cursor_format none uv dir sn =
          Except.ok (Json.obj [("mcpServers",
            Json.obj [(sn, claudeServerConfig uv dir)])]) := rfl
      rw [heq] at h
      cases h
      refine ⟨_, [(sn, claudeServerConfig uv dir)], rfl, by simp [Json.getKey],
        by simp [Json.getKey], ?_⟩
      simp [countKey, List.filter_cons, entryCountStart]
  | some v =>
      cases v with
      | obj f =>
          rcases claude_shape f uv dir sn d' h with ⟨g, hk, rfl⟩ | ⟨hk, rfl⟩
          · refine ⟨_, Json.setKey g sn (claudeServerConfig uv dir), rfl,
              Json.getKey_setKey_self _ _ _, Json.getKey_setKey_self _ _ _, ?_⟩
            rw [countKey_setKey]
            simp [entryCountStart, entryCount, Json.topLookup, hk]
          · refine ⟨_, [(sn, claudeServerConfig uv dir)], rfl,
              Json.getKey_setKey_self _ _ _, by simp [Json.getKey], ?_⟩
            simp [entryCountStart, entryCount, Json.topLookup, hk, countKey,
              List.filter_cons]
      | null => simp [install_to_claude_cursor_format, load_or_create_config] at h
      | bool b => simp [install_to_claude_cursor_format, load_or_create_config] at h
      | num n => simp [install_to_claude_cursor_format, load_or_create_config] at h
      | str s => simp [install_to_claude_cursor_format, load_or_create_config] at h
      | arr xs => simp [install_to_claude_cursor_format, load_or_create_config] at h

theorem vscode_post (parsed : Option Json) (uv dir sn : String) (d' : Json)
    (h : install_to_vscode_format parsed uv dir sn = Except.ok d') :
    ∃ fs inner, d' = Json.obj fs ∧
      Json.getKey fs "servers" = some (Json.obj inner) ∧
      Json.getKey inner sn = some (vscodeServerConfig uv dir) ∧
      countKey inner sn =
        (if entryCountStart parsed "servers" sn = 0 then 1
         else entryCountStart parsed "servers" sn) := by
  cases parsed with
  | none =>
      have heq : install_to_vscode_format none uv dir sn =
          Except.ok (Json.obj [("inputs", Json.arr []),
            ("servers", Json.obj [(sn, vscodeServerConfig uv dir)])]) := rfl
      rw [heq] at h
      cases h
      refine ⟨_, [(sn, vscodeServerConfig uv dir)], rfl, by simp [Json.getKey],
        by simp [Json.getKey], ?_⟩
      simp [countKey, List.filter_cons, entryCountStart]
  | some v =>
      cases v with
      | obj f =>
          rcases vscode_shape f uv dir sn d' h with ⟨g, hk, rfl⟩ | ⟨hk, rfl⟩
          · refine ⟨_, Json.setKey g sn (vscodeServerConfig uv dir), rfl,
              Json.getKey_setKey_self _ _ _, Json.getKey_setKey_self _ _ _, ?_⟩
            rw [countKey_setKey]
            simp [entryCountStart, entryCount, Json.topLookup, hk]
          · refine ⟨_, [(sn, vscodeServerConfig uv dir)], rfl,
              Json.getKey_setKey_self _ _ _, by simp [Json.getKey], ?_⟩
            simp [entryCountStart, entryCount, Json.topLookup, hk, countKey,
              List.filter_cons]
      | null => simp [install_to_vscode_format, load_or_create_config] at h
      | bool b => simp [install_to_vscode_format, load_or_create_config] at h
      | num n => simp [install_to_vscode_format, load_or_create_config] at h
      | str s => simp [install_to_vscode_format, load_or_create_config] at h
      | arr xs => simp [install_to_vscode_format, load_or_create_config] at h

theorem windsurf_post (parsed : Option Json) (uv dir sn : String) (d' : Json)
    (h : install_to_windsurf_format parsed uv dir sn = Except.ok d') :
    ∃ fs l', d' = Json.obj fs ∧
      Json.getKey fs "servers" = some (Json.arr l') ∧
      l'.find? (fun e => isNamed e sn) = some (windsurfServerConfig uv dir sn) ∧
      countNamed l' sn =
        (if countNamedStart parsed sn = 0 then 1 else countNamedStart parsed sn) := by
  cases parsed with
  | none =>
      have heq : install_to_windsurf_format none uv dir sn =
          Except.ok (Json.obj [("servers",
            Json.arr [windsurfServerConfig uv dir sn])]) := rfl
      rw [heq] at h
      cases h
      refine ⟨_, [windsurfServerConfig uv dir sn], rfl, by simp [Json.getKey], ?_, ?_⟩
      · exact List.find?_cons_of_pos _ (isNamed_windsurfServerConfig uv dir sn)
      · simp [countNamed, List.filter_cons, isNamed_windsurfServerConfig,
          countNamedStart]
  | some v =>
      cases v with
      | obj f =>
          rcases windsurf_shape f uv dir sn d' h with
            ⟨l, i, hk, hscan, rfl⟩ | ⟨l, hk, hscan, rfl⟩ | ⟨hk, rfl⟩
          · obtain ⟨hi, hnm, hprev⟩ := findNameIndex_some l sn i hscan
            refine ⟨_, l.set i (windsurfServerConfig uv dir sn), rfl,
              Json.getKey_setKey_self _ _ _, ?_, ?_⟩
            · exact find?_set_first l sn _ i hi (fun j hj => (hprev j hj).2)
                (isNamed_windsurfServerConfig uv dir sn)
            · rw [countNamed_set l sn _ i hi hnm (isNamed_windsurfServerConfig uv dir sn)]
              have hpos := countNamed_pos_of_getD l sn i hi hnm
              simp [countNamedStart, serversOf, Json.topLookup, hk, hpos]
          · have hall := findNameIndex_none l sn hscan
            refine ⟨_, l ++ [windsurfServerConfig uv dir sn], rfl,
              Json.getKey_setKey_self _ _ _, ?_, ?_⟩
            · rw [find?_append_of_not l _ sn (fun e he => (hall e he).2)]
              exact List.find?_cons_of_pos _ (isNamed_windsurfServerConfig uv dir sn)
            · rw [countNamed_append_named l sn _ (isNamed_windsurfServerConfig uv dir sn)]
              have h0 : countNamed l sn = 0 := by
                rw [countNamed, List.length_eq_zero]
                rw [List.filter_eq_nil_iff]
                intro a ha
                simp [(hall a ha).2]
              simp [countNamedStart, serversOf, Json.topLookup, hk, h0]
          · refine ⟨_, [windsurfServerConfig uv dir sn], rfl,
              Json.getKey_setKey_self _ _ _, ?_, ?_⟩
            · exact List.find?_cons_of_pos _ (isNamed_windsurfServerConfig uv dir sn)
            · simp [countNamed, List.filter_cons, isNamed_windsurfServerConfig,
                countNamedStart, serversOf, Json.topLookup, hk]
      | null => simp [install_to_windsurf_format, load_or_create_config] at h
      | bool b => simp [install_to_windsurf_format, load_or_create_config] at h
      | num n => simp [install_to_windsurf_format, load_or_create_config] at h
      | str s => simp [install_to_windsurf_format, load_or_create_config] at h
      | arr xs => simp [install_to_windsurf_format, load_or_create_config] at h

theorem filter_not_set (l : List Json) (sn : String) (cfg : Json) :
    ∀ i, i < l.length → isNamed (l.getD i Json.null) sn = true →
      isNamed cfg sn = true →
      (l.set i cfg).filter (fun e => !(isNamed e sn)) =
        l.filter (fun e => !(isNamed e sn)) := by
  induction l with
  | nil => intro i hi; simp at hi
  | cons e rest ih =>
      intro i hi hnm hcfg
      cases i with
      | zero =>
          have he : isNamed e sn = true := by simpa using hnm
          show (cfg :: rest).filter _ = (e :: rest).filter _
          rw [List.filter_cons, List.filter_cons]
          simp [he, hcfg]
      | succ i' =>
          have h' := ih i' (by simpa using Nat.lt_of_succ_lt_succ hi)
            (by simpa using hnm) hcfg
          show (e :: rest.set i' cfg).filter _ = (e :: rest).filter _
          rw [List.filter_cons, List.filter_cons, h']

theorem processStep_split (uv dir sn : String) (a : RunAcc) (c : String × ClientState) :
    processStep uv dir sn a c =
      ⟨a.installed ++ (processStep uv dir sn ⟨[], [], []⟩ c).installed,
       a.failed ++ (processStep uv dir sn ⟨[], [], []⟩ c).failed,
       a.writes ++ (processStep uv dir sn ⟨[], [], []⟩ c).writes⟩ := by
  rw [processStep, processStep]
  by_cases hc : c.1 ∈ optionalClients ∧ c.2.parentExists = false
  · simp [hc]
  · rw [if_neg hc, if_neg hc]
    rcases hic : install_to_client c.1 c.2.parsed uv dir sn with ⟨b, w⟩
    cases b
    · simp
    · cases w <;> simp

theorem foldl_processStep (uv dir sn : String) (l : List (String × ClientState))
    (a : RunAcc) :
    l.foldl (processStep uv dir sn) a =
      ⟨a.installed ++ (processClients l uv dir sn).installed,
       a.failed ++ (processClients l uv dir sn).failed,
       a.writes ++ (processClients l uv dir sn).writes⟩ := by
  induction l generalizing a with
  | nil => simp [processClients]
  | cons c rest ih =>
      rw [List.foldl_cons, ih (processStep uv dir sn a c)]
      have hc : processClients (c :: rest) uv dir sn =
          rest.foldl (processStep uv dir sn) (processStep uv dir sn ⟨[], [], []⟩ c) := rfl
      rw [hc, ih (processStep uv dir sn ⟨[], [], []⟩ c)]
      rw [processStep_split uv dir sn a c]
      simp

theorem append_ne_empty (a b : String) : a ++ "/" ++ b ≠ "" := by
  intro hc
  have hlen := congrArg String.length hc
  have h1 : ("/" : String).length = 1 := rfl
  have h2 : ("" : String).length = 0 := rfl
  rw [String.length_append, String.length_append, h1, h2] at hlen
  omega

theorem pathJoin_ne_empty (a b : String) (hb : b ≠ "") : pathJoin a b ≠ "" := by
  rw [pathJoin]
  by_cases ha : a = ""
  · simpa [ha] using hb
  · simpa [ha] using append_ne_empty a b

/-! ## Claim theorems -/

/-- C4: when no document exists at the target path or the file cannot be
parsed (`parsed = none`), the loader returns the client-family default
skeleton (`{"mcpServers": {}}` for Family A, `{"inputs": [], "servers": {}}`
for the VSCode variant, `{"servers": []}` for Family B) instead of failing,
and each family's merge then completes successfully — the condition is
never signaled as an error to the caller. -/
theorem claim_C4_default_skeleton (uv dir sn : String) :
    load_or_create_config none none = Json.obj [("mcpServers", Json.obj [])] ∧
    load_or_create_config none
        (some (Json.obj [("inputs", Json.arr []), ("servers", Json.obj [])])) =
      Json.obj [("inputs", Json.arr []), ("servers", Json.obj [])] ∧
    load_or_create_config none (some (Json.obj [("servers", Json.arr [])])) =
      Json.obj [("servers", Json.arr [])] ∧
    install_to_claude_cursor_format none uv dir sn =
      Except.ok (Json.obj [("mcpServers",
        Json.obj [(sn, claudeServerConfig uv dir)])]) ∧
    install_to_vscode_format none uv dir sn =
      Except.ok (Json.obj [("inputs", Json.arr []),
        ("servers", Json.obj [(sn, vscodeServerConfig uv dir)])]) ∧
    install_to_windsurf_format none uv dir sn =
      Except.ok (Json.obj [("servers",
        Json.arr [windsurfServerConfig uv dir sn])]) :=
  ⟨rfl, rfl, rfl, rfl, rfl, rfl⟩

/-- C7 (amended): when the user declines the confirmation prompt the process
terminates with exit status zero — not the non-zero status the claim
states — before any client configuration is touched (nothing installed,
nothing failed, nothing written). -/
theorem claim_C7_decline_exit (responses : List String)
    (targets : List (String × ClientState)) (uv dir sn : String)
    (hdecline : confirm responses = some false) :
    runMain false false responses targets uv dir sn = some (0, ⟨[], [], []⟩) := by
  simp [runMain, hdecline]

/-- C7 witness: a concrete declined run exits 0 having touched nothing. -/
theorem claim_C7_witness :
    runMain false false ["n"] [("claude", ⟨true, none⟩)] "uv" "/d" "usolver" =
      some (0, ⟨[], [], []⟩) :=
  claim_C7_decline_exit ["n"] [("claude", ⟨true, none⟩)] "uv" "/d" "usolver" rfl

/-- C7 counterexample to the claim as stated: declining the prompt
(`install.py` line 344 is `sys.exit(0)`) yields exit status 0, not a
non-zero status. -/
theorem claim_C7_counterexample :
    (runMain false false ["no"] [("claude", ⟨true, none⟩)] "uv" "/d" "usolver").map
      Prod.fst = some 0 := rfl

/-- C8: for every operating-system family (unrecognized ones fall back to
the generic Unix-like branch) the path resolver returns exactly one
non-empty path for each of the seven supported clients, in the fixed client
order; and for any fixed OS family with standard home/environment values no
two clients map to the same file path. -/
theorem claim_C8_config_paths :
    (∀ system home appdata localappdata : String,
      ((get_config_paths system home appdata localappdata).map Prod.fst =
        ["claude", "cursor", "vscode", "cline", "windsurf", "n8n", "5ire"]) ∧
      (∀ p ∈ (get_config_paths system home appdata localappdata).map Prod.snd,
        p ≠ "")) ∧
    (∀ system : String,
      ((get_config_paths system "/home/user" "C:/Users/user/AppData/Roaming"
        "C:/Users/user/AppData/Local").map Prod.snd).Nodup) := by
  constructor
  · intro system home appdata localappdata
    by_cases hd : system = "Darwin"
    · subst hd
      refine ⟨rfl, ?_⟩
      intro p hp
      have hlist : get_config_paths "Darwin" home appdata localappdata =
          [("claude", pathJoin home
              "Library/Application Support/Claude/claude_desktop_config.json"),
           ("cursor", pathJoin home ".cursor/mcp.json"),
           ("vscode", pathJoin home ".vscode/mcp.json"),
           ("cline", pathJoin home ".cline/mcp.json"),
           ("windsurf", pathJoin home ".codeium/windsurf/mcp_config.json"),
           ("n8n", pathJoin home ".n8n/mcp.json"),
           ("5ire", pathJoin home
              "Library/Application Support/5ire/mcp.json")] := rfl
      rw [hlist] at hp
      simp only [List.map_cons, List.map_nil] at hp
      fin_cases hp <;> exact pathJoin_ne_empty _ _ (by decide)
    · by_cases hw : system = "Windows"
      · subst hw
        refine ⟨rfl, ?_⟩
        intro p hp
        have hlist : get_config_paths "Windows" home appdata localappdata =
            [("claude", pathJoin appdata "Claude/claude_desktop_config.json"),
             ("cursor", pathJoin home ".cursor/mcp.json"),
             ("vscode", pathJoin home ".vscode/mcp.json"),
             ("cline", pathJoin home ".cline/mcp.json"),
             ("windsurf", pathJoin localappdata "Codeium/Windsurf/mcp_config.json"),
             ("n8n", pathJoin home ".n8n/mcp.json"),
             ("5ire", pathJoin appdata "5ire/mcp.json")] := rfl
        rw [hlist] at hp
        simp only [List.map_cons, List.map_nil] at hp
        fin_cases hp <;> exact pathJoin_ne_empty _ _ (by decide)
      · constructor
        · rw [get_config_paths, if_neg hd, if_neg hw]
          rfl
        · intro p hp
          rw [get_config_paths, if_neg hd, if_neg hw] at hp
          simp only [List.map_cons, List.map_nil] at hp
          fin_cases hp <;> exact pathJoin_ne_empty _ _ (by decide)
  · intro system
    by_cases hd : system = "Darwin"
    · subst hd
      rw [get_config_paths, if_pos rfl]
      decide
    · by_cases hw : system = "Windows"
      · subst hw
        rw [get_config_paths, if_neg (by decide), if_pos rfl]
        decide
      · rw [get_config_paths, if_neg hd, if_neg hw]
        decide

/-- C9: the orchestrator skips a client (recording no success, no failure,
and writing nothing) exactly when the client is in the optional subset
(cursor, cline, n8n, 5ire) AND its config file's parent directory does not
exist; claude, vscode and windsurf are processed even when their parent
directory is absent. -/
theorem claim_C9_skip_optional (name : String) (st : ClientState)
    (uv dir sn : String) :
    processClients [(name, st)] uv dir sn = ⟨[], [], []⟩ ↔
      (name ∈ optionalClients ∧ st.parentExists = false) := by
  have h1 : processClients [(name, st)] uv dir sn =
      processStep uv dir sn ⟨[], [], []⟩ (name, st) := rfl
  rw [h1, processStep]
  by_cases hc : (name, st).1 ∈ optionalClients ∧ (name, st).2.parentExists = false
  · simp only [if_pos hc]
    simpa using hc
  · rw [if_neg hc]
    simp only [iff_false, hc]
    rcases hic : install_to_client (name, st).1 (name, st).2.parsed uv dir sn with ⟨b, w⟩
    cases b
    · simp
    · cases w <;> simp

/-- C10: when the existing file parses to a top-level value that is not an
object, the loader returns that value as-is (no default skeleton is
substituted); the subsequent insertion raises, so `install_to_client`
reports a per-client failure and writes nothing — the file on disk is
unchanged, because writing only happens after the in-memory merge
completes. -/
theorem claim_C10_nonobject_failure (v : Json) (ds : Option Json)
    (name uv dir sn : String)
    (hv : v.isObj = false)
    (hname : name ∈ ["claude", "cursor", "vscode", "cline", "windsurf", "n8n", "5ire"]) :
    load_or_create_config (some v) ds = v ∧
    install_to_client name (some v) uv dir sn = (false, none) := by
  refine ⟨rfl, ?_⟩
  cases v with
  | obj f => simp [Json.isObj] at hv
  | null => fin_cases hname <;> rfl
  | bool b => fin_cases hname <;> rfl
  | num n => fin_cases hname <;> rfl
  | str s => fin_cases hname <;> rfl
  | arr xs => fin_cases hname <;> rfl

/-- C10 witness: a JSON array as top-level document is returned as-is by
the loader and makes the claude install a per-client failure with no
write. -/
theorem claim_C10_witness :
    load_or_create_config (some (Json.arr [Json.num 1])) none =
      Json.arr [Json.num 1] ∧
    install_to_client "claude" (some (Json.arr [Json.num 1])) "uv" "/d" "usolver" =
      (false, none) :=
  claim_C10_nonobject_failure (Json.arr [Json.num 1]) none "claude" "uv" "/d"
    "usolver" rfl (by simp)

/-- C1: a merge that completes never drops unrelated data: for each of the
three client formats, on any existing object document, every top-level key
other than the family's server key keeps its value, and under the server
key every entry whose name differs from the inserted server name keeps its
value (for Family B: the sublist of elements not named `sn` is unchanged).
Only the one named entry is created or replaced. -/
theorem claim_C1_merge_preserves_unrelated (f : List (String × Json))
    (uv dir sn : String) (d' : Json) :
    (install_to_claude_cursor_format (some (Json.obj f)) uv dir sn = Except.ok d' →
      (∀ k, k ≠ "mcpServers" → Json.topLookup d' k = Json.getKey f k) ∧
      (∀ n, n ≠ sn → serverLookup d' "mcpServers" n =
        serverLookup (Json.obj f) "mcpServers" n)) ∧
    (install_to_vscode_format (some (Json.obj f)) uv dir sn = Except.ok d' →
      (∀ k, k ≠ "servers" → Json.topLookup d' k = Json.getKey f k) ∧
      (∀ n, n ≠ sn → serverLookup d' "servers" n =
        serverLookup (Json.obj f) "servers" n)) ∧
    (install_to_windsurf_format (some (Json.obj f)) uv dir sn = Except.ok d' →
      (∀ k, k ≠ "servers" → Json.topLookup d' k = Json.getKey f k) ∧
      ((serversOf d').filter (fun e => !(isNamed e sn)) =
        (serversOf (Json.obj f)).filter (fun e => !(isNamed e sn)))) := by
  refine ⟨?_, ?_, ?_⟩
  · intro h
    rcases claude_shape f uv dir sn d' h with ⟨g, hk, rfl⟩ | ⟨hk, rfl⟩
    · constructor
      · intro k hkne
        simp [Json.topLookup, Json.getKey_setKey_ne _ _ _ _ hkne]
      · intro n hn
        simp [serverLookup, Json.topLookup, Json.getKey_setKey_self, hk,
          Json.getKey_setKey_ne _ _ _ _ hn]
    · constructor
      · intro k hkne
        simp [Json.topLookup, Json.getKey_setKey_ne _ _ _ _ hkne]
      · intro n hn
        simp [serverLookup, Json.topLookup, Json.getKey_setKey_self, hk,
          Json.getKey, Ne.symm hn]
  · intro h
    rcases vscode_shape f uv dir sn d' h with ⟨g, hk, rfl⟩ | ⟨hk, rfl⟩
    · constructor
      · intro k hkne
        simp [Json.topLookup, Json.getKey_setKey_ne _ _ _ _ hkne]
      · intro n hn
        simp [serverLookup, Json.topLookup, Json.getKey_setKey_self, hk,
          Json.getKey_setKey_ne _ _ _ _ hn]
    · constructor
      · intro k hkne
        simp [Json.topLookup, Json.getKey_setKey_ne _ _ _ _ hkne]
      · intro n hn
        simp [serverLookup, Json.topLookup, Json.getKey_setKey_self, hk,
          Json.getKey, Ne.symm hn]
  · intro h
    rcases windsurf_shape f uv dir sn d' h with
      ⟨l, i, hk, hscan, rfl⟩ | ⟨l, hk, hscan, rfl⟩ | ⟨hk, rfl⟩
    · obtain ⟨hi, hnm, _⟩ := findNameIndex_some l sn i hscan
      constructor
      · intro k hkne
        simp [Json.topLookup, Json.getKey_setKey_ne _ _ _ _ hkne]
      · have hs1 : serversOf (Json.obj (Json.setKey f "servers"
            (Json.arr (l.set i (windsurfServerConfig uv dir sn))))) =
            l.set i (windsurfServerConfig uv dir sn) := by
          simp [serversOf, Json.topLookup, Json.getKey_setKey_self]
        have hs2 : serversOf (Json.obj f) = l := by
          simp [serversOf, Json.topLookup, hk]
        rw [hs1, hs2]
        exact filter_not_set l sn _ i hi hnm (isNamed_windsurfServerConfig uv dir sn)
    · constructor
      · intro k hkne
        simp [Json.topLookup, Json.getKey_setKey_ne _ _ _ _ hkne]
      · have hs1 : serversOf (Json.obj (Json.setKey f "servers"
            (Json.arr (l ++ [windsurfServerConfig uv dir sn])))) =
            l ++ [windsurfServerConfig uv dir sn] := by
          simp [serversOf, Json.topLookup, Json.getKey_setKey_self]
        have hs2 : serversOf (Json.obj f) = l := by
          simp [serversOf, Json.topLookup, hk]
        rw [hs1, hs2, List.filter_append]
        simp [isNamed_windsurfServerConfig]
    · constructor
      · intro k hkne
        simp [Json.topLookup, Json.getKey_setKey_ne _ _ _ _ hkne]
      · have hs1 : serversOf (Json.obj (Json.setKey f "servers"
            (Json.arr [windsurfServerConfig uv dir sn]))) =
            [windsurfServerConfig uv dir sn] := by
          simp [serversOf, Json.topLookup, Json.getKey_setKey_self]
        have hs2 : serversOf (Json.obj f) = [] := by
          simp [serversOf, Json.topLookup, hk]
        rw [hs1, hs2]
        simp [isNamed_windsurfServerConfig]

/-- C1 witness: merging into a claude document with one unrelated top-level
key and one unrelated server entry preserves both. -/
theorem claim_C1_witness :
    (∀ k, k ≠ "mcpServers" →
      Json.topLookup (Json.obj [("other", Json.num 7), ("mcpServers",
        Json.obj [("keep", Json.str "x"),
          ("usolver", claudeServerConfig "uv" "/d")])]) k =
      Json.getKey [("other", Json.num 7),
        ("mcpServers", Json.obj [("keep", Json.str "x")])] k) ∧
    (∀ n, n ≠ "usolver" →
      serverLookup (Json.obj [("other", Json.num 7), ("mcpServers",
        Json.obj [("keep", Json.str "x"),
          ("usolver", claudeServerConfig "uv" "/d")])]) "mcpServers" n =
      serverLookup (Json.obj [("other", Json.num 7),
        ("mcpServers", Json.obj [("keep", Json.str "x")])]) "mcpServers" n) :=
  (claim_C1_merge_preserves_unrelated
    [("other", Json.num 7), ("mcpServers", Json.obj [("keep", Json.str "x")])]
    "uv" "/d" "usolver"
    (Json.obj [("other", Json.num 7), ("mcpServers",
      Json.obj [("keep", Json.str "x"),
        ("usolver", claudeServerConfig "uv" "/d")])])).1 rfl

/-- C2 (amended): a Family A merge on an absent/unparsable file, or on a
loaded document that is a mapping whose family key is absent or maps to a
mapping, succeeds, ensures the family's top-level key exists as a mapping
and sets `document[key][server_name]` to the command/args record (VSCode:
key `servers` and an extra fixed `type: "stdio"` field).  On other loaded
documents the insertion raises instead of setting the entry
(counterexample). -/
theorem claim_C2_familyA_insert (parsed : Option Json) (uv dir sn : String) :
    ((parsed = none ∨ ∃ f, parsed = some (Json.obj f) ∧
        (Json.getKey f "mcpServers" = none ∨
          ∃ g, Json.getKey f "mcpServers" = some (Json.obj g))) →
      ∃ fs, install_to_claude_cursor_format parsed uv dir sn =
          Except.ok (Json.obj fs) ∧
        ∃ inner, Json.getKey fs "mcpServers" = some (Json.obj inner) ∧
          Json.getKey inner sn = some (claudeServerConfig uv dir)) ∧
    ((parsed = none ∨ ∃ f, parsed = some (Json.obj f) ∧
        (Json.getKey f "servers" = none ∨
          ∃ g, Json.getKey f "servers" = some (Json.obj g))) →
      ∃ fs, install_to_vscode_format parsed uv dir sn = Except.ok (Json.obj fs) ∧
        ∃ inner, Json.getKey fs "servers" = some (Json.obj inner) ∧
          Json.getKey inner sn = some (vscodeServerConfig uv dir)) := by
  constructor
  · rintro (rfl | ⟨f, rfl, hk | ⟨g, hk⟩⟩)
    · exact ⟨[("mcpServers", Json.obj [(sn, claudeServerConfig uv dir)])], rfl,
        [(sn, claudeServerConfig uv dir)],
        by simp [Json.getKey], by simp [Json.getKey]⟩
    · have hinst : install_to_claude_cursor_format (some (Json.obj f)) uv dir sn =
          Except.ok (Json.obj (Json.setKey f "mcpServers"
            (Json.obj [(sn, claudeServerConfig uv dir)]))) := by
        simp [install_to_claude_cursor_format, load_or_create_config, hk,
          Json.getKey_setKey_self, Json.setKey_setKey]
        rfl
      exact ⟨_, hinst, [(sn, claudeServerConfig uv dir)],
        Json.getKey_setKey_self _ _ _, by simp [Json.getKey]⟩
    · have hinst : install_to_claude_cursor_format (some (Json.obj f)) uv dir sn =
          Except.ok (Json.obj (Json.setKey f "mcpServers"
            (Json.obj (Json.setKey g sn (claudeServerConfig uv dir))))) := by
        simp [install_to_claude_cursor_format, load_or_create_config, hk]
      exact ⟨_, hinst, Json.setKey g sn (claudeServerConfig uv dir),
        Json.getKey_setKey_self _ _ _, Json.getKey_setKey_self _ _ _⟩
  · rintro (rfl | ⟨f, rfl, hk | ⟨g, hk⟩⟩)
    · exact ⟨[("inputs", Json.arr []),
          ("servers", Json.obj [(sn, vscodeServerConfig uv dir)])], rfl,
        [(sn, vscodeServerConfig uv dir)],
        by simp [Json.getKey], by simp [Json.getKey]⟩
    · have hinst : install_to_vscode_format (some (Json.obj f)) uv dir sn =
          Except.ok (Json.obj (Json.setKey f "servers"
            (Json.obj [(sn, vscodeServerConfig uv dir)]))) := by
        simp [install_to_vscode_format, load_or_create_config, hk,
          Json.getKey_setKey_self, Json.setKey_setKey]
        rfl
      exact ⟨_, hinst, [(sn, vscodeServerConfig uv dir)],
        Json.getKey_setKey_self _ _ _, by simp [Json.getKey]⟩
    · have hinst : install_to_vscode_format (some (Json.obj f)) uv dir sn =
          Except.ok (Json.obj (Json.setKey f "servers"
            (Json.obj (Json.setKey g sn (vscodeServerConfig uv dir))))) := by
        simp [install_to_vscode_format, load_or_create_config, hk]
      exact ⟨_, hinst, Json.setKey g sn (vscodeServerConfig uv dir),
        Json.getKey_setKey_self _ _ _, Json.getKey_setKey_self _ _ _⟩

/-- C2 witness: merging into a claude document with one unrelated key
creates the `mcpServers` mapping and the named entry. -/
theorem claim_C2_witness :
    ∃ fs, install_to_claude_cursor_format
        (some (Json.obj [("other", Json.num 1)])) "uv" "/d" "usolver" =
        Except.ok (Json.obj fs) ∧
      ∃ inner, Json.getKey fs "mcpServers" = some (Json.obj inner) ∧
        Json.getKey inner "usolver" = some (claudeServerConfig "uv" "/d") :=
  (claim_C2_familyA_insert (some (Json.obj [("other", Json.num 1)]))
    "uv" "/d" "usolver").1 (Or.inr ⟨_, rfl, Or.inl rfl⟩)

/-- C2 counterexample to the claim as stated: on a loaded document whose
family key holds a non-mapping (`{"mcpServers": 5}`), the insertion raises
a `TypeError` instead of setting `document[key][server_name]`; likewise for
the VSCode variant. -/
theorem claim_C2_counterexample :
    install_to_claude_cursor_format
        (some (Json.obj [("mcpServers", Json.num 5)])) "uv" "/d" "usolver" =
      Except.error "TypeError" ∧
    install_to_vscode_format
        (some (Json.obj [("servers", Json.num 5)])) "uv" "/d" "usolver" =
      Except.error "TypeError" := ⟨rfl, rfl⟩

/-- C3 (amended): a Family B merge on a loaded document whose `servers`
value is a sequence all of whose elements are mappings succeeds; when some
element's `name` equals the inserted name, the first such element is
replaced in place (same index, length unchanged), otherwise the new record
is appended (length grows by exactly one).  A sequence containing a
non-mapping element reached by the scan makes the merge raise instead
(counterexample). -/
theorem claim_C3_familyB_insert (f : List (String × Json)) (l : List Json)
    (uv dir sn : String)
    (hk : Json.getKey f "servers" = some (Json.arr l))
    (hobj : ∀ e ∈ l, e.isObj = true) :
    ∃ d', install_to_windsurf_format (some (Json.obj f)) uv dir sn =
        Except.ok d' ∧
      ((∃ i, i < l.length ∧ isNamed (l.getD i Json.null) sn = true ∧
          (∀ j, j < i → isNamed (l.getD j Json.null) sn = false) ∧
          serversOf d' = l.set i (windsurfServerConfig uv dir sn) ∧
          (serversOf d').length = l.length) ∨
        ((∀ e ∈ l, isNamed e sn = false) ∧
          serversOf d' = l ++ [windsurfServerConfig uv dir sn] ∧
          (serversOf d').length = l.length + 1)) := by
  obtain ⟨o, ho⟩ := findNameIndex_total l sn hobj
  cases o with
  | some i =>
      have hinst : install_to_windsurf_format (some (Json.obj f)) uv dir sn =
          Except.ok (Json.obj (Json.setKey f "servers"
            (Json.arr (l.set i (windsurfServerConfig uv dir sn))))) := by
        simp [install_to_windsurf_format, load_or_create_config, hk, ho]
      obtain ⟨hi, hnm, hprev⟩ := findNameIndex_some l sn i ho
      have hs : serversOf (Json.obj (Json.setKey f "servers"
          (Json.arr (l.set i (windsurfServerConfig uv dir sn))))) =
          l.set i (windsurfServerConfig uv dir sn) := by
        simp [serversOf, Json.topLookup, Json.getKey_setKey_self]
      refine ⟨_, hinst, Or.inl ⟨i, hi, hnm, fun j hj => (hprev j hj).2, hs, ?_⟩⟩
      rw [hs]
      exact List.length_set l i _
  | none =>
      have hall := findNameIndex_none l sn ho
      have hinst : install_to_windsurf_format (some (Json.obj f)) uv dir sn =
          Except.ok (Json.obj (Json.setKey f "servers"
            (Json.arr (l ++ [windsurfServerConfig uv dir sn])))) := by
        simp [install_to_windsurf_format, load_or_create_config, hk, ho]
      have hs : serversOf (Json.obj (Json.setKey f "servers"
          (Json.arr (l ++ [windsurfServerConfig uv dir sn])))) =
          l ++ [windsurfServerConfig uv dir sn] := by
        simp [serversOf, Json.topLookup, Json.getKey_setKey_self]
      refine ⟨_, hinst, Or.inr ⟨fun e he => (hall e he).2, hs, ?_⟩⟩
      rw [hs]
      simp

/-- C3 witness: merging `usolver` into `{"servers": [{"name": "other"}]}`
appends, growing the sequence to length 2. -/
theorem claim_C3_witness :
    ∃ d', install_to_windsurf_format
        (some (Json.obj [("servers",
          Json.arr [Json.obj [("name", Json.str "other")]])]))
        "uv" "/d" "usolver" = Except.ok d' ∧
      ((∃ i, i < [Json.obj [("name", Json.str "other")]].length ∧
          isNamed ([Json.obj [("name", Json.str "other")]].getD i Json.null)
            "usolver" = true ∧
          (∀ j, j < i →
            isNamed ([Json.obj [("name", Json.str "other")]].getD j Json.null)
              "usolver" = false) ∧
          serversOf d' = [Json.obj [("name", Json.str "other")]].set i
            (windsurfServerConfig "uv" "/d" "usolver") ∧
          (serversOf d').length = [Json.obj [("name", Json.str "other")]].length) ∨
        ((∀ e ∈ [Json.obj [("name", Json.str "other")]],
            isNamed e "usolver" = false) ∧
          serversOf d' = [Json.obj [("name", Json.str "other")]] ++
            [windsurfServerConfig "uv" "/d" "usolver"] ∧
          (serversOf d').length =
            [Json.obj [("name", Json.str "other")]].length + 1)) :=
  claim_C3_familyB_insert [("servers",
      Json.arr [Json.obj [("name", Json.str "other")]])]
    [Json.obj [("name", Json.str "other")]] "uv" "/d" "usolver" rfl
    (by simp [Json.isObj])

/-- C3 counterexample to the claim as stated: `{"servers": [42]}` has a
sequence under `servers` and no element named `usolver`, yet the merge does
not append — it raises an `AttributeError` when the scan reaches the
non-mapping element. -/
theorem claim_C3_counterexample :
    install_to_windsurf_format
        (some (Json.obj [("servers", Json.arr [Json.num 42])]))
        "uv" "/d" "usolver" = Except.error "AttributeError" := rfl

/-- C6: once the run proceeds (`--yes` or a confirmed prompt), the
orchestrator's exit status is non-zero exactly when the set of successfully
installed clients is empty; and processing splits over list append — each
client's outcome (installed, failed, written) is accumulated independently,
so one client's failure never stops the processing of the remaining
clients. -/
theorem claim_C6_aggregate_exit (yes : Bool) (responses : List String)
    (targets l1 l2 : List (String × ClientState)) (uv dir sn : String)
    (code : Nat) (acc : RunAcc) :
    ((yes = true ∨ confirm responses = some true) →
      runMain false yes responses targets uv dir sn = some (code, acc) →
      acc = processClients targets uv dir sn ∧
        (code ≠ 0 ↔ acc.installed = [])) ∧
    (processClients (l1 ++ l2) uv dir sn =
      ⟨(processClients l1 uv dir sn).installed ++
        (processClients l2 uv dir sn).installed,
       (processClients l1 uv dir sn).failed ++
        (processClients l2 uv dir sn).failed,
       (processClients l1 uv dir sn).writes ++
        (processClients l2 uv dir sn).writes⟩) := by
  constructor
  · intro hgo hrun
    have hsel : (if yes = true then some true else confirm responses) = some true := by
      rcases hgo with h | h
      · rw [h]
        simp
      · by_cases hy : yes = true <;> simp [hy, h]
    rw [runMain] at hrun
    rw [if_neg (by simp)] at hrun
    rw [hsel] at hrun
    simp only [Option.some.injEq, Prod.mk.injEq] at hrun
    obtain ⟨hcode, hacc⟩ := hrun
    subst hacc
    refine ⟨rfl, ?_⟩
    by_cases he : (processClients targets uv dir sn).installed = []
    · rw [if_pos he] at hcode
      subst hcode
      simp [he]
    · rw [if_neg he] at hcode
      subst hcode
      simp [he]
  · have h1 : processClients (l1 ++ l2) uv dir sn =
        l2.foldl (processStep uv dir sn) (processClients l1 uv dir sn) := by
      rw [processClients, List.foldl_append]
      rfl
    rw [h1, foldl_processStep]

/-- C6 witness: a concrete mixed run — claude succeeds from an absent file,
windsurf fails on a malformed (non-object) document — still exits 0 and
records both outcomes. -/
theorem claim_C6_witness :
    processClients [("claude", ⟨true, none⟩),
        ("windsurf", ⟨true, some (Json.num 3)⟩)] "uv" "/d" "usolver" =
      processClients [("claude", ⟨true, none⟩),
        ("windsurf", ⟨true, some (Json.num 3)⟩)] "uv" "/d" "usolver" ∧
    ((0 : Nat) ≠ 0 ↔
      (processClients [("claude", ⟨true, none⟩),
        ("windsurf", ⟨true, some (Json.num 3)⟩)] "uv" "/d" "usolver").installed = []) :=
  (claim_C6_aggregate_exit true []
    [("claude", ⟨true, none⟩), ("windsurf", ⟨true, some (Json.num 3)⟩)] [] []
    "uv" "/d" "usolver" 0
    (processClients [("claude", ⟨true, none⟩),
      ("windsurf", ⟨true, some (Json.num 3)⟩)] "uv" "/d" "usolver")).1
    (Or.inl rfl) rfl

/-- C5 (amended): merging the same server name twice (from any file state,
with different commands/args) never adds a second entry — after the second
merge the number of entries under that name equals the number after the
first — and the entry found under that name carries the latest merge's
command and args (last-write-wins).  When the starting document has at most
one entry under that name, exactly one entry remains.  (A Family B starting
document with two entries of the same name keeps both: counterexample.) -/
theorem claim_C5_last_write_wins (parsed : Option Json)
    (uv1 dir1 uv2 dir2 sn : String) (d1 d2 : Json) :
    (install_to_claude_cursor_format parsed uv1 dir1 sn = Except.ok d1 →
      install_to_claude_cursor_format (some d1) uv2 dir2 sn = Except.ok d2 →
      entryCount d2 "mcpServers" sn = entryCount d1 "mcpServers" sn ∧
      serverLookup d2 "mcpServers" sn = some (claudeServerConfig uv2 dir2) ∧
      ((∀ d0, parsed = some d0 → entryCount d0 "mcpServers" sn ≤ 1) →
        entryCount d2 "mcpServers" sn = 1)) ∧
    (install_to_vscode_format parsed uv1 dir1 sn = Except.ok d1 →
      install_to_vscode_format (some d1) uv2 dir2 sn = Except.ok d2 →
      entryCount d2 "servers" sn = entryCount d1 "servers" sn ∧
      serverLookup d2 "servers" sn = some (vscodeServerConfig uv2 dir2) ∧
      ((∀ d0, parsed = some d0 → entryCount d0 "servers" sn ≤ 1) →
        entryCount d2 "servers" sn = 1)) ∧
    (install_to_windsurf_format parsed uv1 dir1 sn = Except.ok d1 →
      install_to_windsurf_format (some d1) uv2 dir2 sn = Except.ok d2 →
      countNamed (serversOf d2) sn = countNamed (serversOf d1) sn ∧
      (serversOf d2).find? (fun e => isNamed e sn) =
        some (windsurfServerConfig uv2 dir2 sn) ∧
      ((∀ d0, parsed = some d0 → countNamed (serversOf d0) sn ≤ 1) →
        countNamed (serversOf d2) sn = 1)) := by
  refine ⟨?_, ?_, ?_⟩
  · intro h1 h2
    obtain ⟨fs1, inner1, rfl, hk1, hget1, hcnt1⟩ :=
      claude_post parsed uv1 dir1 sn d1 h1
    obtain ⟨fs2, inner2, rfl, hk2, hget2, hcnt2⟩ :=
      claude_post (some (Json.obj fs1)) uv2 dir2 sn d2 h2
    have he2 : entryCount (Json.obj fs2) "mcpServers" sn = countKey inner2 sn := by
      simp [entryCount, Json.topLookup, hk2]
    have he1 : entryCount (Json.obj fs1) "mcpServers" sn = countKey inner1 sn := by
      simp [entryCount, Json.topLookup, hk1]
    have hst : entryCountStart (some (Json.obj fs1)) "mcpServers" sn =
        countKey inner1 sn := by
      simp [entryCountStart, entryCount, Json.topLookup, hk1]
    rw [hst] at hcnt2
    have hpos : countKey inner1 sn ≠ 0 := countKey_pos_of_getKey inner1 sn _ hget1
    rw [if_neg hpos] at hcnt2
    refine ⟨?_, ?_, ?_⟩
    · rw [he2, he1, hcnt2]
    · simp [serverLookup, Json.topLookup, hk2, hget2]
    · intro hle
      have hstart : entryCountStart parsed "mcpServers" sn ≤ 1 := by
        cases parsed with
        | none => simp [entryCountStart]
        | some d0 => simpa [entryCountStart] using hle d0 rfl
      have h1c : countKey inner1 sn = 1 := by
        rw [hcnt1]
        by_cases h0 : entryCountStart parsed "mcpServers" sn = 0
        · rw [if_pos h0]
        · rw [if_neg h0]
          omega
      rw [he2, hcnt2, h1c]
  · intro h1 h2
    obtain ⟨fs1, inner1, rfl, hk1, hget1, hcnt1⟩ :=
      vscode_post parsed uv1 dir1 sn d1 h1
    obtain ⟨fs2, inner2, rfl, hk2, hget2, hcnt2⟩ :=
      vscode_post (some (Json.obj fs1)) uv2 dir2 sn d2 h2
    have he2 : entryCount (Json.obj fs2) "servers" sn = countKey inner2 sn := by
      simp [entryCount, Json.topLookup, hk2]
    have he1 : entryCount (Json.obj fs1) "servers" sn = countKey inner1 sn := by
      simp [entryCount, Json.topLookup, hk1]
    have hst : entryCountStart (some (Json.obj fs1)) "servers" sn =
        countKey inner1 sn := by
      simp [entryCountStart, entryCount, Json.topLookup, hk1]
    rw [hst] at hcnt2
    have hpos : countKey inner1 sn ≠ 0 := countKey_pos_of_getKey inner1 sn _ hget1
    rw [if_neg hpos] at hcnt2
    refine ⟨?_, ?_, ?_⟩
    · rw [he2, he1, hcnt2]
    · simp [serverLookup, Json.topLookup, hk2, hget2]
    · intro hle
      have hstart : entryCountStart parsed "servers" sn ≤ 1 := by
        cases parsed with
        | none => simp [entryCountStart]
        | some d0 => simpa [entryCountStart] using hle d0 rfl
      have h1c : countKey inner1 sn = 1 := by
        rw [hcnt1]
        by_cases h0 : entryCountStart parsed "servers" sn = 0
        · rw [if_pos h0]
        · rw [if_neg h0]
          omega
      rw [he2, hcnt2, h1c]
  · intro h1 h2
    obtain ⟨fs1, sl1, rfl, hk1, hfind1, hcnt1⟩ :=
      windsurf_post parsed uv1 dir1 sn d1 h1
    obtain ⟨fs2, sl2, rfl, hk2, hfind2, hcnt2⟩ :=
      windsurf_post (some (Json.obj fs1)) uv2 dir2 sn d2 h2
    have hs2 : serversOf (Json.obj fs2) = sl2 := by
      simp [serversOf, Json.topLookup, hk2]
    have hs1 : serversOf (Json.obj fs1) = sl1 := by
      simp [serversOf, Json.topLookup, hk1]
    have hst : countNamedStart (some (Json.obj fs1)) sn = countNamed sl1 sn := by
      simp [countNamedStart, serversOf, Json.topLookup, hk1]
    rw [hst] at hcnt2
    have hpos : countNamed sl1 sn ≠ 0 := countNamed_pos_of_find? sl1 sn _ hfind1
    rw [if_neg hpos] at hcnt2
    refine ⟨?_, ?_, ?_⟩
    · rw [hs2, hs1, hcnt2]
    · rw [hs2]
      exact hfind2
    · intro hle
      have hstart : countNamedStart parsed sn ≤ 1 := by
        cases parsed with
        | none => simp [countNamedStart]
        | some d0 => simpa [countNamedStart] using hle d0 rfl
      have h1c : countNamed sl1 sn = 1 := by
        rw [hcnt1]
        by_cases h0 : countNamedStart parsed sn = 0
        · rw [if_pos h0]
        · rw [if_neg h0]
          omega
      rw [hs2, hcnt2, h1c]

/-- C5 witness: starting from an absent file, merging `usolver` twice
(second time with a different command/directory) leaves one claude entry
carrying the second merge's record. -/
theorem claim_C5_witness :
    entryCount (Json.obj [("mcpServers",
        Json.obj [("usolver", claudeServerConfig "uv2" "/d2")])])
      "mcpServers" "usolver" =
    entryCount (Json.obj [("mcpServers",
        Json.obj [("usolver", claudeServerConfig "uv" "/d")])])
      "mcpServers" "usolver" ∧
    serverLookup (Json.obj [("mcpServers",
        Json.obj [("usolver", claudeServerConfig "uv2" "/d2")])])
      "mcpServers" "usolver" = some (claudeServerConfig "uv2" "/d2") ∧
    ((∀ d0, (none : Option Json) = some d0 →
        entryCount d0 "mcpServers" "usolver" ≤ 1) →
      entryCount (Json.obj [("mcpServers",
        Json.obj [("usolver", claudeServerConfig "uv2" "/d2")])])
        "mcpServers" "usolver" = 1) :=
  (claim_C5_last_write_wins none "uv" "/d" "uv2" "/d2" "usolver"
    (Json.obj [("mcpServers", Json.obj [("usolver", claudeServerConfig "uv" "/d")])])
    (Json.obj [("mcpServers",
      Json.obj [("usolver", claudeServerConfig "uv2" "/d2")])])).1 rfl rfl

/-- C5 counterexample to the claim as stated: a windsurf document whose
`servers` list already holds two entries named `usolver` still holds two
entries of that name after merging it twice — not exactly one. -/
theorem claim_C5_counterexample :
    install_to_windsurf_format (some (Json.obj [("servers", Json.arr
        [Json.obj [("name", Json.str "usolver")],
         Json.obj [("name", Json.str "usolver")]])])) "uv" "/d" "usolver" =
      Except.ok (Json.obj [("servers", Json.arr
        [windsurfServerConfig "uv" "/d" "usolver",
         Json.obj [("name", Json.str "usolver")]])]) ∧
    install_to_windsurf_format (some (Json.obj [("servers", Json.arr
        [windsurfServerConfig "uv" "/d" "usolver",
         Json.obj [("name", Json.str "usolver")]])])) "uv2" "/d2" "usolver" =
      Except.ok (Json.obj [("servers", Json.arr
        [windsurfServerConfig "uv2" "/d2" "usolver",
         Json.obj [("name", Json.str "usolver")]])]) ∧
    countNamed (serversOf (Json.obj [("servers", Json.arr
        [windsurfServerConfig "uv2" "/d2" "usolver",
         Json.obj [("name", Json.str "usolver")]])])) "usolver" = 2 ∧
    (2 : Nat) ≠ 1 :=
  ⟨rfl, rfl, rfl, by decide⟩
